import Mathlib

/-!
Verification of the raster tile cache-and-render pipeline of the
ikuta-ryokuchi-heatmap frontend.

The JavaScript sources (src/frontend/app.js, src/frontend/renderer.js) are
shallowly embedded below:
- JavaScript numbers are modelled by `JsNum` (finite rationals plus the
  non-finite values NaN / ±Infinity and `undefined`, which arises from
  out-of-bounds typed-array reads);
- asynchronous cache state is modelled by an explicit state machine whose
  steps are the synchronous (non-suspending) prefixes of the async
  functions — faithful under the single-threaded cooperative scheduling of
  the browser event loop;
- the network is an explicit transport oracle passed as a parameter.
-/

namespace Heatmap

/-- JavaScript numeric values as read from a Float32Array / computed by
`parseFloat`: a finite value, NaN, +Infinity, -Infinity, or `undefined`
(the result of an out-of-bounds indexed read). -/
inductive JsNum where
  | finite (q : ℚ)
  | nan
  | posInf
  | negInf
  | jsUndefined
  deriving DecidableEq, Repr, Inhabited

/-- JavaScript `isFinite(v)` (with `Number(undefined) = NaN`, so
`isFinite(undefined) = false`). -/
def JsNum.isFiniteNum : JsNum → Bool
  | .finite _ => true
  | _ => false

/-- JavaScript `Math.round` on an exact rational: round half toward
positive infinity, i.e. `⌊x + 1/2⌋`. -/
def jsRound (x : ℚ) : ℤ := ⌊x + 1/2⌋

/-- An RGB triple, one palette stop (components are the integer literals of
renderer.js, e.g. `[165, 0, 38]`). -/
structure RGB where
  r : ℤ
  g : ℤ
  b : ℤ
  deriving DecidableEq, Repr, Inhabited

/-- A colormap: per-indicator value range plus ordered palette stops
(renderer.js `COLORMAPS` entries). -/
structure Colormap where
  min : ℚ
  max : ℚ
  palette : List RGB
  deriving DecidableEq, Repr, Inhabited

/-- The four indicators (glossary: vegetation index, enhanced vegetation
index, water index, surface temperature). -/
inductive Indicator where
  | ndvi
  | evi
  | ndwi
  | lst
  deriving DecidableEq, Repr, Inhabited

/-- The string name of an indicator as used in cache keys and URLs. -/
def Indicator.name : Indicator → String
  | .ndvi => "ndvi"
  | .evi => "evi"
  | .ndwi => "ndwi"
  | .lst => "lst"

/-- The shared red→yellow→green palette of renderer.js used by both `ndvi`
and `evi`. -/
def rdYlGnPalette : List RGB :=
  [⟨165, 0, 38⟩, ⟨215, 48, 39⟩, ⟨244, 109, 67⟩, ⟨253, 174, 97⟩,
   ⟨254, 224, 139⟩, ⟨255, 255, 191⟩, ⟨217, 239, 139⟩, ⟨166, 217, 106⟩,
   ⟨102, 189, 99⟩, ⟨26, 152, 80⟩, ⟨0, 104, 55⟩]

/-- renderer.js `COLORMAPS`: fixed value range and palette per indicator. -/
def COLORMAPS : Indicator → Colormap
  | .ndvi => ⟨-2/10, 9/10, rdYlGnPalette⟩
  | .evi => ⟨-1/10, 8/10, rdYlGnPalette⟩
  | .ndwi => ⟨-5/10, 5/10,
      [⟨140, 81, 10⟩, ⟨191, 129, 45⟩, ⟨223, 194, 125⟩, ⟨246, 232, 195⟩,
       ⟨245, 245, 245⟩, ⟨199, 234, 229⟩, ⟨128, 205, 193⟩, ⟨53, 151, 143⟩,
       ⟨1, 102, 94⟩, ⟨0, 60, 48⟩]⟩
  | .lst => ⟨10, 45,
      [⟨49, 54, 149⟩, ⟨69, 117, 180⟩, ⟨116, 173, 209⟩, ⟨171, 217, 233⟩,
       ⟨224, 243, 248⟩, ⟨255, 255, 191⟩, ⟨254, 224, 144⟩, ⟨253, 174, 97⟩,
       ⟨244, 109, 67⟩, ⟨215, 48, 39⟩, ⟨165, 0, 38⟩]⟩

/-- List indexing as in JavaScript `palette[k]` for a natural index, with
`undefined` impossible here because callers clamp `k` to the palette
bounds; out-of-range reads return the `default` stop (unreachable for
non-empty palettes, which is all renderer.js ever supplies). -/
def stopAt (palette : List RGB) (k : ℕ) : RGB := palette.getD k default

/-- renderer.js `valueToRGB(value, colormap)`: `null` (Transparent) for a
non-finite sample, otherwise clamp to the range, normalize, scale by the
stop count and linearly interpolate between the two bracketing stops,
rounding each channel. -/
def valueToRGB (value : JsNum) (cm : Colormap) : Option RGB :=
  match value with
  | .finite v =>
    let t : ℚ := max 0 (min 1 ((v - cm.min) / (cm.max - cm.min)))
    let n : ℕ := cm.palette.length - 1
    let i : ℕ := (⌊t * n⌋).toNat
    let f : ℚ := t * n - i
    let c0 := stopAt cm.palette (min i n)
    let c1 := stopAt cm.palette (min (i + 1) n)
    some ⟨jsRound (c0.r + (c1.r - c0.r) * f),
          jsRound (c0.g + (c1.g - c0.g) * f),
          jsRound (c0.b + (c1.b - c0.b) * f)⟩
  | _ => none

/-! ### Time Index Codec and URL/key builders (app.js) -/

/-- app.js `CONFIG.START_YEAR`. -/
def START_YEAR : ℕ := 2016

/-- app.js `CONFIG.START_MONTH`. -/
def START_MONTH : ℕ := 1

/-- app.js `CONFIG.COG_URL_TEMPLATE`. -/
def COG_URL_TEMPLATE : String := "./data/{indicator}/{indicator}_{yyyy}_{mm}.tif"

/-- The calendar pair plus its string renderings returned by
`monthIndexToYYYYMM`. -/
structure YYYYMM where
  year : ℕ
  month : ℕ
  yyyy : String
  mm : String
  deriving DecidableEq, Repr

/-- JavaScript `String(n).padStart(2, "0")` for a natural number. -/
def pad2 (n : ℕ) : String :=
  if n < 10 then "0" ++ toString n else toString n

/-- app.js `monthIndexToYYYYMM(index)`: decode a zero-based month offset
into (year, month) with string forms. -/
def monthIndexToYYYYMM (index : ℕ) : YYYYMM :=
  let totalMonths := START_YEAR * 12 + (START_MONTH - 1) + index
  let year := totalMonths / 12
  let month := totalMonths % 12 + 1
  { year := year, month := month, yyyy := toString year, mm := pad2 month }

/-- The spec's inverse formula `(year - epochYear)*12 + (month - epochMonth)`
(app.js line 615 computes the same expression for summary rows). Stated
over ℤ so that the subtraction is the mathematical one. -/
def toIndex (year month : ℕ) : ℤ :=
  ((year : ℤ) - START_YEAR) * 12 + ((month : ℤ) - START_MONTH)

/-- app.js `getCogCacheKey(indicator, index)`: the string
`"{indicator}_{yyyy}_{mm}"`. -/
def getCogCacheKey (indicator : Indicator) (index : ℕ) : String :=
  let c := monthIndexToYYYYMM index
  indicator.name ++ "_" ++ c.yyyy ++ "_" ++ c.mm

/-- app.js `buildCogUrl(indicator, index)`: global template substitution of
`{indicator}`, `{yyyy}`, `{mm}`. -/
def buildCogUrl (indicator : Indicator) (index : ℕ) : String :=
  let c := monthIndexToYYYYMM index
  ((COG_URL_TEMPLATE.replace "{indicator}" indicator.name).replace
      "{yyyy}" c.yyyy).replace "{mm}" c.mm

/-! ### Raster Decoder and Compositor (renderer.js) -/

/-- JavaScript `data[i]` on a Float32Array viewed as a list of samples:
out-of-bounds reads yield `undefined`. -/
def jsIndex (data : List JsNum) (i : ℕ) : JsNum := data.getD i .jsUndefined

/-- One pixel of the composited display image: `some rgb` for a colored
pixel (written with the fixed alpha 200), `none` for a fully transparent
pixel (alpha 0). -/
abbrev DisplayPixel := Option RGB

/-- The Compositor: the pixel loop of renderer.js `loadAndRender`, mapping
every sample index `i < width*height` through `valueToRGB`. -/
def composite (data : List JsNum) (width height : ℕ) (cm : Colormap) :
    List DisplayPixel :=
  (List.range (width * height)).map fun i => valueToRGB (jsIndex data i) cm

/-- A decoded-and-rendered raster (renderer.js `loadAndRender` success
value): the decoded Float32 grid, its dimensions, and the composited
canvas. -/
structure CogResult where
  data : List JsNum
  width : ℕ
  height : ℕ
  canvas : List DisplayPixel
  deriving DecidableEq, Repr, Inhabited

/-- Outcome of the external fetch-and-decode sequence
(`GeoTIFF.fromUrl` / `getImage` / `readRasters`): either a decoded grid
with its dimensions, or a thrown error (404, malformed file, network
failure) carrying a message. -/
inductive FetchOutcome where
  | ok (data : List JsNum) (width height : ℕ)
  | err (msg : String)
  deriving DecidableEq, Repr

/-- A transport oracle: what the network/decoder does for each URL. -/
abbrev Transport := String → FetchOutcome

/-- renderer.js `loadAndRender(url, indicator)`: any error thrown while
fetching or decoding is caught and collapsed to the missing sentinel
`none`; on success the grid is composited with the indicator's colormap. -/
def loadAndRender (transport : Transport) (url : String)
    (indicator : Indicator) : Option CogResult :=
  match transport url with
  | .err _ => none
  | .ok data width height =>
    some { data := data, width := width, height := height,
           canvas := composite data width height (COLORMAPS indicator) }

/-! ### Geographic-to-pixel mapping and pixel extraction (app.js) -/

/-- app.js `state.cogMeta`: WGS84 bounding box plus raster dimensions. -/
structure SpatialMeta where
  west : ℚ
  south : ℚ
  east : ℚ
  north : ℚ
  width : ℕ
  height : ℕ
  deriving DecidableEq, Repr

/-- A (col, row) pixel pair produced by `latLngToPixel`. -/
structure Pixel where
  col : ℤ
  row : ℤ
  deriving DecidableEq, Repr

/-- app.js `latLngToPixel(lat, lng, cogMeta)`: `none` outside the bounding
box, otherwise floor-scaled column and row clamped into
`[0, width-1] × [0, height-1]` (north-up, row 0 at the north edge). -/
def latLngToPixel (lat lng : ℚ) (m : SpatialMeta) : Option Pixel :=
  if lng < m.west ∨ lng > m.east ∨ lat < m.south ∨ lat > m.north then none
  else
    let col : ℤ := ⌊(lng - m.west) / (m.east - m.west) * m.width⌋
    let row : ℤ := ⌊(m.north - lat) / (m.north - m.south) * m.height⌋
    some { col := max 0 (min col ((m.width : ℤ) - 1)),
           row := max 0 (min row ((m.height : ℤ) - 1)) }

/-- app.js `getPixelValue(cogResult, col, row)`: read the flat index
`row*width + col` from the grid (an out-of-bounds read yields `undefined`)
and map any non-finite value to `null`. -/
def getPixelValue (r : CogResult) (col row : ℤ) : Option ℚ :=
  match (if 0 ≤ row * (r.width : ℤ) + col then
           jsIndex r.data (row * (r.width : ℤ) + col).toNat
         else .jsUndefined) with
  | .finite q => some q
  | _ => none

/-! ### Cache Store (app.js `cogCache` + `fetchAndRenderCog`)

Under the browser's single-threaded cooperative scheduling, the body of
`fetchAndRenderCog` runs without suspension: `cogCache.has`, `cogCache.set`
(registering the still-pending promise of the async producer) and
`cogCache.get` all execute within one turn, and the producer's own first
synchronous slice (URL building and the issuing of the fetch) starts inside
that turn. We model each `fetchAndRenderCog` call as one atomic step on an
explicit cache state; distinct pending/settled promises are distinguished
by a fresh numeric unit id, and each producer invocation is logged. -/

/-- The cache state: the `cogCache` map (association list from key to the
unit id of the stored promise), a log of the keys for which the producer
(URL build + fetch-and-decode) has been invoked, and a fresh-id counter. -/
structure CacheState where
  cache : List (String × ℕ)
  producerLog : List String
  nextId : ℕ
  deriving DecidableEq, Repr

/-- The initial cache state: `new Map()`, no producer ever invoked. -/
def initCache : CacheState := ⟨[], [], 0⟩

/-- app.js `fetchAndRenderCog(indicator, index)` as one cooperative turn:
if the key is absent, synchronously store a fresh pending unit (invoking
the producer); in every case return the stored unit for the key. -/
def fetchAndRenderCog (indicator : Indicator) (index : ℕ)
    (s : CacheState) : CacheState × ℕ :=
  match s.cache.lookup (getCogCacheKey indicator index) with
  | some u => (s, u)
  | none =>
    (⟨(getCogCacheKey indicator index, s.nextId) :: s.cache,
      getCogCacheKey indicator index :: s.producerLog, s.nextId + 1⟩,
     s.nextId)

/-- A sequence of (possibly interleaved, possibly concurrent) cache
lookups, run in event-loop order; returns the final state and, per
request, the key looked up and the unit id handed back. -/
def runGets : List (Indicator × ℕ) → CacheState →
    CacheState × List (String × ℕ)
  | [], s => (s, [])
  | (ind, idx) :: rest, s =>
    let step := fetchAndRenderCog ind idx s
    let tail := runGets rest step.1
    (tail.1, (getCogCacheKey ind idx, step.2) :: tail.2)

/-! ### Range Invalidator (app.js `invalidateCogCache`) -/

/-- Modelled from the spec: renderer.js exposes no `rerender` in the
sources (its export list is `loadAndRender`, `getColormap`,
`buildLegendCanvas`), yet app.js `invalidateCogCache` calls
`RENDERER.rerender({...result, indicator})`. Per §4.8 of the spec, the
transformation "replaces only the displayImage (via Compositor, using the
new range) while preserving decodedGrid unchanged": recomposite the grid
with the indicator's current colormap, keeping data/width/height. -/
def rerender (currentRanges : String → Colormap) (indicator : String)
    (r : CogResult) : CogResult :=
  { r with canvas :=
      composite r.data r.width r.height (currentRanges indicator) }

/-- app.js `invalidateCogCache()` acting on the settled values of the
cached promises: snapshot the entries, and for each entry chain a
transformation that is the identity on the missing sentinel and otherwise
recolors via `rerender`, the indicator recovered as the part of the key
before the first underscore. -/
def invalidateCogCache (currentRanges : String → Colormap)
    (entries : List (String × Option CogResult)) :
    List (String × Option CogResult) :=
  entries.map fun e =>
    let indicator := ((e.1.splitOn "_").headD "")
    (e.1, match e.2 with
          | none => none
          | some r => some (rerender currentRanges indicator r))

/-! ### Pixel Sampler (app.js `collectPixelTimeseries`)

The month loop is modelled against a per-month outcome oracle
`monthResult : ℕ → Option CogResult` (what `fetchAndRenderCog`'s promise
for that month settles to). The `values` array is a list of
`Option ℚ` initialized to all `null`; the worklist `0..totalMonths-1` is
processed in waves of `CONCURRENCY` items; each item writes only its own
index, so the wave-internal completion order is irrelevant and a
left-to-right fold is faithful. -/

/-- One `processOne(monthIndex)` body: if the settled result is non-null,
write `getPixelValue` at the selected pixel into slot `monthIndex`;
otherwise (missing sentinel, or a fault caught by the `try`) leave the
slot as is. -/
def processOne (monthResult : ℕ → Option CogResult) (col row : ℤ)
    (values : List (Option ℚ)) (monthIndex : ℕ) : List (Option ℚ) :=
  match monthResult monthIndex with
  | some r => values.set monthIndex (getPixelValue r col row)
  | none => values

/-- The batched while-loop: take `conc` items off the queue, process the
whole wave, continue until the queue is empty. -/
def collectLoop (conc : ℕ) (monthResult : ℕ → Option CogResult)
    (col row : ℤ) : List ℕ → List (Option ℚ) → List (Option ℚ)
  | [], values => values
  | i :: rest, values =>
    if _h : conc = 0 then values
    else
      collectLoop conc monthResult col row ((i :: rest).drop conc)
        (((i :: rest).take conc).foldl (processOne monthResult col row) values)
termination_by q => q.length
decreasing_by
  simp only [List.length_drop, List.length_cons]
  omega

/-- app.js `collectPixelTimeseries` restricted to its value collection:
`values = new Array(totalMonths).fill(null)`, queue `0..totalMonths-1`,
waves of size `conc` (the source fixes `CONCURRENCY = 8`). -/
def collectPixelValues (conc : ℕ) (monthResult : ℕ → Option CogResult)
    (col row : ℤ) (totalMonths : ℕ) : List (Option ℚ) :=
  collectLoop conc monthResult col row (List.range totalMonths)
    (List.replicate totalMonths none)

/-! ### Range edit validation (app.js `applyRange`) -/

/-- The observable state that an `applyRange` invocation can touch: the
indicator's ColorRange, the number of `invalidateCogCache` and
`renderCurrentMonth` calls issued, and the legend error label text. -/
structure LegendState where
  rangeMin : ℚ
  rangeMax : ℚ
  invalidations : ℕ
  renders : ℕ
  errorText : String
  deriving DecidableEq, Repr

/-- app.js `applyRange()`: the parsed min/max inputs (`none` models a
`parseFloat` result of NaN, i.e. non-numeric input). Invalid input sets an
error message and returns before any mutation; valid input clears the
message, sets the range, invalidates the cache and re-renders. -/
def applyRange (minInput maxInput : Option ℚ) (st : LegendState) :
    LegendState :=
  match minInput, maxInput with
  | some newMin, some newMax =>
    if newMin ≥ newMax then
      { st with errorText := "min < max にしてください" }
    else
      { rangeMin := newMin, rangeMax := newMax,
        invalidations := st.invalidations + 1,
        renders := st.renders + 1, errorText := "" }
  | _, _ => { st with errorText := "数値を入力してください" }

/-! ### Concrete data used by witnesses -/

/-- The spatial metadata of the spec's pixel-mapping example (the
configured bounding box with a 100×80 raster). -/
def demoMeta : SpatialMeta :=
  { west := 139543/1000, south := 35594/1000, east := 139582/1000,
    north := 35626/1000, width := 100, height := 80 }

/-- A concrete 1×1 decoded raster holding the single finite sample 1/2. -/
def sampleCog : CogResult :=
  { data := [.finite (1/2)], width := 1, height := 1,
    canvas := composite [.finite (1/2)] 1 1 (COLORMAPS .ndvi) }

/-- A concrete per-month outcome oracle: the fetch fails (settles to the
missing sentinel) for exactly the months 10, 50 and 99, and yields
`sampleCog` for every other month. -/
def demoMonthResult (i : ℕ) : Option CogResult :=
  if i ∈ ({10, 50, 99} : Finset ℕ) then none else some sampleCog

/-- A concrete legend state (the default ndvi range, no effects issued). -/
def demoLegend : LegendState :=
  { rangeMin := -2/10, rangeMax := 9/10, invalidations := 0, renders := 0,
    errorText := "" }

/-! ## Theorems -/

/-- C4: For every non-negative integer index, converting the index to a
(year, month) pair via `monthIndexToYYYYMM` and converting the pair back
with the inverse formula `(year - epochYear)*12 + (month - epochMonth)`
yields the original index. -/
theorem monthIndex_roundtrip (index : ℕ) :
    toIndex (monthIndexToYYYYMM index).year (monthIndexToYYYYMM index).month
      = index := by
  simp only [toIndex, monthIndexToYYYYMM, START_YEAR, START_MONTH]
  omega

/-- C6: with the configured bounding box and a 100×80 raster, the exact
center of the box maps to column 50, row 40; and every point whose
longitude is strictly west of the box maps to the out-of-area outcome
`none`, whatever its latitude. -/
theorem latLngToPixel_center_and_west :
    latLngToPixel (3561/100) (1395625/10000) demoMeta
        = some { col := 50, row := 40 } ∧
    ∀ lat lng : ℚ, lng < demoMeta.west →
      latLngToPixel lat lng demoMeta = none := by
  constructor
  · norm_num [latLngToPixel, demoMeta]
  · intro lat lng h
    simp only [latLngToPixel, if_pos (Or.inl h)]

/-- C6 witness: the west-of-box branch applied at a concrete point. -/
theorem latLngToPixel_center_and_west_witness :
    latLngToPixel (3561/100) (1395/10) demoMeta = none :=
  latLngToPixel_center_and_west.2 (3561/100) (1395/10) (by norm_num [demoMeta])

/-- `Math.round` of an integer is that integer. -/
theorem jsRound_intCast (z : ℤ) : jsRound (z : ℚ) = z := by
  unfold jsRound
  rw [Int.floor_eq_iff]
  constructor <;> norm_num

/-- Reading stop 0 is reading the head of the palette. -/
theorem stopAt_zero (l : List RGB) : stopAt l 0 = l.headD default := by
  cases l <;> rfl

/-- Reading stop `length - 1` is reading the last palette stop. -/
theorem stopAt_last (l : List RGB) :
    stopAt l (l.length - 1) = l.getLastD default := by
  rw [stopAt, List.getD_eq_getElem?_getD, List.getLastD_eq_getLast?,
    List.getLast?_eq_getElem?]

/-- C5: for every value range with min < max and every non-empty palette,
`valueToRGB` maps NaN and +Infinity to Transparent (`none`), the exact
range minimum to the first palette stop, and the exact range maximum to
the last palette stop. -/
theorem valueToColor_extremes (cm : Colormap) (hlt : cm.min < cm.max)
    (_hp : cm.palette ≠ []) :
    valueToRGB .nan cm = none ∧
    valueToRGB .posInf cm = none ∧
    valueToRGB (.finite cm.min) cm = some (cm.palette.headD default) ∧
    valueToRGB (.finite cm.max) cm = some (cm.palette.getLastD default) := by
  refine ⟨rfl, rfl, ?_, ?_⟩
  · simp only [valueToRGB, sub_self, zero_div]
    rw [min_eq_right (by norm_num : (0:ℚ) ≤ 1), max_self]
    simp only [zero_mul, Int.floor_zero, Int.toNat_zero, Nat.cast_zero,
      sub_zero, Nat.zero_min, mul_zero, add_zero]
    rw [jsRound_intCast, jsRound_intCast, jsRound_intCast, stopAt_zero]
  · have hne : cm.max - cm.min ≠ 0 := sub_ne_zero.mpr (ne_of_gt hlt)
    simp only [valueToRGB, div_self hne]
    rw [min_self, max_eq_right (by norm_num : (0:ℚ) ≤ 1), one_mul]
    rw [Int.floor_natCast, Int.toNat_natCast, sub_self, min_self]
    rw [show min (cm.palette.length - 1 + 1) (cm.palette.length - 1)
          = cm.palette.length - 1 from min_eq_right (Nat.le_succ _)]
    simp only [mul_zero, add_zero]
    rw [jsRound_intCast, jsRound_intCast, jsRound_intCast, stopAt_last]

/-- C5 witness: the extremes of the ndvi colormap. -/
theorem valueToColor_extremes_witness :
    valueToRGB .nan (COLORMAPS .ndvi) = none ∧
    valueToRGB .posInf (COLORMAPS .ndvi) = none ∧
    valueToRGB (.finite (COLORMAPS .ndvi).min) (COLORMAPS .ndvi)
      = some ((COLORMAPS .ndvi).palette.headD default) ∧
    valueToRGB (.finite (COLORMAPS .ndvi).max) (COLORMAPS .ndvi)
      = some ((COLORMAPS .ndvi).palette.getLastD default) :=
  valueToColor_extremes (COLORMAPS .ndvi) (by norm_num [COLORMAPS])
    (by simp [COLORMAPS, rdYlGnPalette])

/-- C10: whenever `latLngToPixel` returns a pixel pair, the pair lies in
`[0, width-1] × [0, height-1]` (for a raster with at least one column and
one row); and every point of the closed bounding box — boundary included —
is accepted rather than rejected as out-of-area. -/
theorem latLngToPixel_in_bounds (m : SpatialMeta)
    (hW : 1 ≤ m.width) (hH : 1 ≤ m.height) :
    (∀ lat lng p, latLngToPixel lat lng m = some p →
      0 ≤ p.col ∧ p.col ≤ (m.width : ℤ) - 1 ∧
      0 ≤ p.row ∧ p.row ≤ (m.height : ℤ) - 1) ∧
    (∀ lat lng : ℚ, m.west ≤ lng → lng ≤ m.east → m.south ≤ lat →
      lat ≤ m.north → (latLngToPixel lat lng m).isSome) := by
  constructor
  · intro lat lng p hp
    unfold latLngToPixel at hp
    split at hp
    · exact absurd hp (by simp)
    · rw [Option.some_inj] at hp
      subst hp
      refine ⟨le_max_left _ _, max_le (by omega) (min_le_right _ _),
        le_max_left _ _, max_le (by omega) (min_le_right _ _)⟩
  · intro lat lng h1 h2 h3 h4
    unfold latLngToPixel
    rw [if_neg (by push_neg; exact ⟨h1, h2, h3, h4⟩)]
    rfl

/-- C10 witness: the south-west corner of the demo bounding box lies on the
boundary and is accepted. -/
theorem latLngToPixel_in_bounds_witness :
    (latLngToPixel (35594/1000) (139543/1000) demoMeta).isSome :=
  (latLngToPixel_in_bounds demoMeta (by norm_num [demoMeta])
      (by norm_num [demoMeta])).2 (35594/1000) (139543/1000)
    (by norm_num [demoMeta]) (by norm_num [demoMeta])
    (by norm_num [demoMeta]) (by norm_num [demoMeta])

/-- C9: per-pixel extraction is total and never yields a non-finite
number: any numeric answer is a finite grid sample, and any flat index
`row*width + col` outside the decoded grid (negative or past the end)
yields the absent sample `none` rather than an error or NaN. -/
theorem getPixelValue_safe (r : CogResult) (col row : ℤ) :
    (∀ q, getPixelValue r col row = some q → JsNum.finite q ∈ r.data) ∧
    ((row * (r.width : ℤ) + col < 0 ∨
      (r.data.length : ℤ) ≤ row * (r.width : ℤ) + col) →
      getPixelValue r col row = none) := by
  constructor
  · intro q hq
    unfold getPixelValue at hq
    split at hq
    case h_1 v heq =>
      rw [Option.some_inj] at hq
      subst hq
      by_cases hnn : (0 : ℤ) ≤ row * r.width + col
      · rw [if_pos hnn] at heq
        rw [jsIndex, List.getD_eq_getElem?_getD] at heq
        rcases hx : r.data[(row * (r.width : ℤ) + col).toNat]? with _ | x
        · rw [hx] at heq
          exact absurd heq (by simp)
        · rw [hx] at heq
          simp only [Option.getD_some] at heq
          exact heq ▸ List.getElem?_mem hx
      · rw [if_neg hnn] at heq
        exact absurd heq (by simp)
    case h_2 => exact absurd hq (by simp)
  · intro h
    unfold getPixelValue
    by_cases hnn : (0 : ℤ) ≤ row * r.width + col
    · have hlen : r.data.length ≤ (row * (r.width : ℤ) + col).toNat := by
        omega
      rw [if_pos hnn, jsIndex, List.getD_eq_getElem?_getD,
        List.getElem?_eq_none hlen]
      rfl
    · rw [if_neg hnn]

/-- C9 witness: reading past the end of a 1×1 grid yields `none`. -/
theorem getPixelValue_safe_witness : getPixelValue sampleCog 5 0 = none :=
  (getPixelValue_safe sampleCog 5 0).2 (by right; norm_num [sampleCog])

/-- C8: the fetch-and-decode of the Raster Decoder never propagates a
transport or decoding error: any thrown error is collapsed to the missing
sentinel `none`, and a successful decode yields the raster result with the
composited display image — so the result is always one of the two. -/
theorem loadAndRender_never_throws (transport : Transport) (url : String)
    (ind : Indicator) :
    (∀ msg, transport url = .err msg →
      loadAndRender transport url ind = none) ∧
    (∀ data w h, transport url = .ok data w h →
      loadAndRender transport url ind =
        some { data := data, width := w, height := h,
               canvas := composite data w h (COLORMAPS ind) }) := by
  constructor
  · intro msg hmsg
    simp [loadAndRender, hmsg]
  · intro data w h hok
    simp [loadAndRender, hok]

/-- C8 witness: a transport that always throws (e.g. HTTP 404) yields the
missing sentinel. -/
theorem loadAndRender_never_throws_witness :
    loadAndRender (fun _ => .err "HTTP 404") "./data/ndvi/ndvi_2016_01.tif"
      .ndvi = none :=
  (loadAndRender_never_throws (fun _ => .err "HTTP 404")
      "./data/ndvi/ndvi_2016_01.tif" .ndvi).1 "HTTP 404" rfl

/-- C7: an invalid range edit — a non-numeric field, or min ≥ max
(including the equal case) — is rejected with a user-facing message before
any mutation: the range, the invalidation count and the render count are
all unchanged. -/
theorem applyRange_rejects_invalid (minInput maxInput : Option ℚ)
    (st : LegendState)
    (h : minInput = none ∨ maxInput = none ∨
         ∃ mn mx, minInput = some mn ∧ maxInput = some mx ∧ mx ≤ mn) :
    (applyRange minInput maxInput st).rangeMin = st.rangeMin ∧
    (applyRange minInput maxInput st).rangeMax = st.rangeMax ∧
    (applyRange minInput maxInput st).invalidations = st.invalidations ∧
    (applyRange minInput maxInput st).renders = st.renders ∧
    (applyRange minInput maxInput st).errorText ≠ "" := by
  rcases h with h | h | ⟨mn, mx, hmn, hmx, hle⟩
  · subst h
    cases maxInput <;> simp [applyRange]
  · subst h
    cases minInput <;> simp [applyRange]
  · subst hmn; subst hmx
    simp [applyRange, if_pos (ge_iff_le.mpr hle)]

/-- C7 witness: the equal edit min = 5, max = 5 is rejected and mutates
nothing. -/
theorem applyRange_rejects_invalid_witness :
    (applyRange (some 5) (some 5) demoLegend).rangeMin = demoLegend.rangeMin ∧
    (applyRange (some 5) (some 5) demoLegend).rangeMax = demoLegend.rangeMax ∧
    (applyRange (some 5) (some 5) demoLegend).invalidations
      = demoLegend.invalidations ∧
    (applyRange (some 5) (some 5) demoLegend).renders = demoLegend.renders ∧
    (applyRange (some 5) (some 5) demoLegend).errorText ≠ "" :=
  applyRange_rejects_invalid (some 5) (some 5) demoLegend
    (Or.inr (Or.inr ⟨5, 5, rfl, rfl, le_refl 5⟩))

/-! ### Cache Store dedup (C1) -/

/-- Producer accounting: a key's producer has run at most once, and only
if the key is bound in the cache. -/
def CacheInv (s : CacheState) : Prop :=
  ∀ k, s.producerLog.count k ≤ if (s.cache.lookup k).isSome then 1 else 0

/-- The initial cache state satisfies the accounting invariant. -/
theorem initCache_inv : CacheInv initCache := by
  intro k
  simp [initCache, CacheInv, List.lookup]

/-- Looking a key up past a differently-keyed head entry. -/
theorem lookup_cons_ne (k k' : String) (v : ℕ) (l : List (String × ℕ))
    (h : k ≠ k') : ((k', v) :: l).lookup k = l.lookup k := by
  simp [List.lookup, beq_eq_false_iff_ne.mpr h]

/-- Looking a key up at a matching head entry. -/
theorem lookup_cons_self (k : String) (v : ℕ) (l : List (String × ℕ)) :
    ((k, v) :: l).lookup k = some v := by
  simp [List.lookup]

/-- A cache lookup step never removes or rebinds an existing binding. -/
theorem lookup_after_step (ind : Indicator) (idx : ℕ) (s : CacheState)
    (k : String) (u : ℕ) (h : s.cache.lookup k = some u) :
    (fetchAndRenderCog ind idx s).1.cache.lookup k = some u := by
  unfold fetchAndRenderCog
  cases hh : s.cache.lookup (getCogCacheKey ind idx) with
  | some v => exact h
  | none =>
    have hne : k ≠ getCogCacheKey ind idx := by
      intro e
      rw [e, hh] at h
      cases h
    simpa [lookup_cons_ne _ _ _ _ hne] using h

/-- After a lookup step, the key looked up is bound to the returned unit. -/
theorem step_binds (ind : Indicator) (idx : ℕ) (s : CacheState) :
    (fetchAndRenderCog ind idx s).1.cache.lookup (getCogCacheKey ind idx)
      = some (fetchAndRenderCog ind idx s).2 := by
  unfold fetchAndRenderCog
  cases hh : s.cache.lookup (getCogCacheKey ind idx) with
  | some v => exact hh
  | none => exact lookup_cons_self _ _ _

/-- One step preserves producer accounting. -/
theorem step_inv (ind : Indicator) (idx : ℕ) (s : CacheState)
    (h : CacheInv s) : CacheInv (fetchAndRenderCog ind idx s).1 := by
  intro k
  have hk := h k
  unfold fetchAndRenderCog
  cases hh : s.cache.lookup (getCogCacheKey ind idx) with
  | some v => exact hk
  | none =>
    by_cases he : k = getCogCacheKey ind idx
    · subst he
      rw [hh] at hk
      simp only [Option.isSome_none, Bool.false_eq_true, if_false] at hk
      simp only [List.count_cons_self, lookup_cons_self, Option.isSome_some,
        if_pos]
      omega
    · have hne' : getCogCacheKey ind idx ≠ k := fun e => he e.symm
      simp only [lookup_cons_ne _ _ _ _ he, List.count_cons,
        beq_eq_false_iff_ne.mpr hne', if_false, Nat.add_zero]
      exact hk

/-- A run of lookups never removes or rebinds an existing binding. -/
theorem runGets_preserves (reqs : List (Indicator × ℕ)) :
    ∀ (s : CacheState) (k : String) (u : ℕ), s.cache.lookup k = some u →
      (runGets reqs s).1.cache.lookup k = some u := by
  induction reqs with
  | nil => intro s k u h; exact h
  | cons r rest ih =>
    intro s k u h
    obtain ⟨ind, idx⟩ := r
    simp only [runGets]
    exact ih _ _ _ (lookup_after_step ind idx s k u h)

/-- A run of lookups preserves producer accounting. -/
theorem runGets_inv (reqs : List (Indicator × ℕ)) :
    ∀ s : CacheState, CacheInv s → CacheInv (runGets reqs s).1 := by
  induction reqs with
  | nil => intro s h; exact h
  | cons r rest ih =>
    intro s h
    obtain ⟨ind, idx⟩ := r
    simp only [runGets]
    exact ih _ (step_inv ind idx s h)

/-- Every unit handed back during a run is the final cache binding of its
key. -/
theorem runGets_out (reqs : List (Indicator × ℕ)) :
    ∀ (s : CacheState) (k : String) (u : ℕ), (k, u) ∈ (runGets reqs s).2 →
      (runGets reqs s).1.cache.lookup k = some u := by
  induction reqs with
  | nil => intro s k u h; simp [runGets] at h
  | cons r rest ih =>
    intro s k u h
    obtain ⟨ind, idx⟩ := r
    simp only [runGets, List.mem_cons] at h
    simp only [runGets]
    rcases h with h | h
    · rw [Prod.mk.injEq] at h
      obtain ⟨hk, hu⟩ := h
      subst hk
      subst hu
      exact runGets_preserves rest _ _ _ (step_binds ind idx s)
    · exact ih _ _ _ h

/-- C1: across any finite interleaving of concurrent `fetchAndRenderCog`
calls starting from the fresh cache (no `clearAll`), the producer for a
given (indicator, time index) key runs at most once; every unit handed
back for the key is the unit stored in the cache map at the end of the
run; and any two calls for the key receive the same unit. -/
theorem cache_dedup (reqs : List (Indicator × ℕ)) (ind : Indicator)
    (idx : ℕ) :
    (runGets reqs initCache).1.producerLog.count (getCogCacheKey ind idx)
      ≤ 1 ∧
    (∀ u, (getCogCacheKey ind idx, u) ∈ (runGets reqs initCache).2 →
      (runGets reqs initCache).1.cache.lookup (getCogCacheKey ind idx)
        = some u) ∧
    (∀ u v, (getCogCacheKey ind idx, u) ∈ (runGets reqs initCache).2 →
      (getCogCacheKey ind idx, v) ∈ (runGets reqs initCache).2 → u = v) := by
  refine ⟨?_, ?_, ?_⟩
  · have h := runGets_inv reqs initCache initCache_inv (getCogCacheKey ind idx)
    split at h
    · exact h
    · omega
  · intro u hu
    exact runGets_out reqs initCache _ u hu
  · intro u v hu hv
    have h1 := runGets_out reqs initCache _ u hu
    have h2 := runGets_out reqs initCache _ v hv
    rw [h1] at h2
    exact Option.some_inj.mp h2

/-- C1 witness: five interleaved lookups for (ndvi, index 42) all receive
unit 0, whose producer ran exactly once. -/
theorem cache_dedup_witness :
    (runGets [(.ndvi, 42), (.ndvi, 42), (.ndvi, 42), (.ndvi, 42),
      (.ndvi, 42)] initCache).1.cache.lookup (getCogCacheKey .ndvi 42)
      = some 0 :=
  (cache_dedup [(.ndvi, 42), (.ndvi, 42), (.ndvi, 42), (.ndvi, 42),
      (.ndvi, 42)] .ndvi 42).2.1 0 (by decide)

/-! ### Range Invalidator (C2) -/

/-- C2: a range change recolors every cached entry in place, with no
network access (structurally: `invalidateCogCache` takes no transport and
invokes no producer): a sentinel entry stays the sentinel, and a settled
raster entry keeps its key and is replaced by a result whose decoded grid,
width and height are unchanged and whose display image is recomposited
with the indicator's current range. -/
theorem invalidate_recolors_in_place (currentRanges : String → Colormap)
    (entries : List (String × Option CogResult)) :
    (∀ key, (key, (none : Option CogResult)) ∈ entries →
      (key, (none : Option CogResult))
        ∈ invalidateCogCache currentRanges entries) ∧
    (∀ key r, (key, some r) ∈ entries →
      ∃ r', (key, some r') ∈ invalidateCogCache currentRanges entries ∧
        r'.data = r.data ∧ r'.width = r.width ∧ r'.height = r.height ∧
        r'.canvas = composite r.data r.width r.height
          (currentRanges ((key.splitOn "_").headD ""))) := by
  constructor
  · intro key h
    have := List.mem_map_of_mem
      (fun e : String × Option CogResult =>
        (e.1, match e.2 with
              | none => none
              | some r => some (rerender currentRanges
                  ((e.1.splitOn "_").headD "") r))) h
    simpa [invalidateCogCache] using this
  · intro key r h
    refine ⟨rerender currentRanges ((key.splitOn "_").headD "") r,
      ?_, rfl, rfl, rfl, rfl⟩
    have := List.mem_map_of_mem
      (fun e : String × Option CogResult =>
        (e.1, match e.2 with
              | none => none
              | some r => some (rerender currentRanges
                  ((e.1.splitOn "_").headD "") r))) h
    simpa [invalidateCogCache] using this

/-- C2 witness: invalidating a one-entry cache holding a settled raster
keeps the grid and dimensions and recomposites the display image. -/
theorem invalidate_recolors_in_place_witness :
    ∃ r', ("ndvi_2016_01", some r') ∈
        invalidateCogCache (fun _ => COLORMAPS .evi)
          [("ndvi_2016_01", some sampleCog)] ∧
      r'.data = sampleCog.data ∧ r'.width = sampleCog.width ∧
      r'.height = sampleCog.height ∧
      r'.canvas = composite sampleCog.data sampleCog.width sampleCog.height
        ((fun _ => COLORMAPS .evi) (("ndvi_2016_01".splitOn "_").headD "")) :=
  (invalidate_recolors_in_place (fun _ => COLORMAPS .evi)
      [("ndvi_2016_01", some sampleCog)]).2 "ndvi_2016_01" sampleCog
    (by simp)

/-! ### Pixel Sampler (C3) -/

/-- Processing one month leaves the length of the values list unchanged. -/
theorem processOne_length (m : ℕ → Option CogResult) (c r : ℤ)
    (vals : List (Option ℚ)) (i : ℕ) :
    (processOne m c r vals i).length = vals.length := by
  unfold processOne
  cases m i <;> simp

/-- Processing a worklist leaves the length unchanged. -/
theorem foldl_processOne_length (m : ℕ → Option CogResult) (c r : ℤ)
    (q : List ℕ) :
    ∀ vals, (q.foldl (processOne m c r) vals).length = vals.length := by
  induction q with
  | nil => intro vals; rfl
  | cons i rest ih =>
    intro vals
    rw [List.foldl_cons, ih, processOne_length]

/-- Processing one month touches only that month's slot. -/
theorem processOne_getElem_ne (m : ℕ → Option CogResult) (c r : ℤ)
    (vals : List (Option ℚ)) (i j : ℕ) (h : i ≠ j) :
    (processOne m c r vals i)[j]? = vals[j]? := by
  unfold processOne
  cases m i with
  | none => rfl
  | some rr => exact List.getElem?_set_ne h

/-- Slots not on the worklist are untouched. -/
theorem foldl_processOne_not_mem (m : ℕ → Option CogResult) (c r : ℤ)
    (q : List ℕ) :
    ∀ vals j, j ∉ q →
      (q.foldl (processOne m c r) vals)[j]? = vals[j]? := by
  induction q with
  | nil => intro vals j _; rfl
  | cons i rest ih =>
    intro vals j hj
    rw [List.foldl_cons, ih _ _ (fun h => hj (List.mem_cons_of_mem i h)),
      processOne_getElem_ne _ _ _ _ _ _
        (fun e => hj (by rw [← e]; exact List.mem_cons_self i rest))]

/-- A slot on a duplicate-free worklist ends up holding the extraction of
its month's settled result, or its previous content if that month settled
to the missing sentinel. -/
theorem foldl_processOne_mem (m : ℕ → Option CogResult) (c r : ℤ)
    (q : List ℕ) :
    ∀ vals j, q.Nodup → j ∈ q → j < vals.length →
      (q.foldl (processOne m c r) vals)[j]? =
        match m j with
        | some rr => some (getPixelValue rr c r)
        | none => vals[j]? := by
  induction q with
  | nil => intro vals j _ h _; cases h
  | cons i rest ih =>
    intro vals j hnd hj hlen
    rw [List.foldl_cons]
    rcases List.mem_cons.mp hj with he | hmem
    · subst he
      rw [foldl_processOne_not_mem m c r rest _ j (List.nodup_cons.mp hnd).1]
      unfold processOne
      cases m j with
      | none => rfl
      | some rr => exact List.getElem?_set_self hlen
    · have hne : j ≠ i := by
        rintro rfl
        exact (List.nodup_cons.mp hnd).1 hmem
      rw [ih _ j (List.nodup_cons.mp hnd).2 hmem
        (by rw [processOne_length]; exact hlen)]
      cases m j with
      | none => exact processOne_getElem_ne _ _ _ _ _ _ (fun e => hne e.symm)
      | some rr => rfl

/-- The wave-batched loop equals the sequential fold over the worklist,
for any positive pool size. -/
theorem collectLoop_eq_foldl (conc : ℕ) (hc : 1 ≤ conc)
    (m : ℕ → Option CogResult) (c r : ℤ) :
    ∀ q vals, collectLoop conc m c r q vals
      = q.foldl (processOne m c r) vals := by
  suffices H : ∀ (n : ℕ) (q : List ℕ) vals, q.length ≤ n →
      collectLoop conc m c r q vals = q.foldl (processOne m c r) vals by
    intro q vals
    exact H q.length q vals le_rfl
  intro n
  induction n with
  | zero =>
    intro q vals h
    rw [Nat.le_zero, List.length_eq_zero] at h
    subst h
    rw [collectLoop]
    rfl
  | succ n ih =>
    intro q vals h
    cases q with
    | nil =>
      rw [collectLoop]
      rfl
    | cons i rest =>
      simp only [List.length_cons] at h
      rw [collectLoop, dif_neg (by omega)]
      rw [ih _ _ (by simp only [List.length_drop, List.length_cons]; omega)]
      rw [← List.foldl_append, List.take_append_drop]

/-- The collected sequence has one slot per month. -/
theorem collectPixelValues_length (conc : ℕ) (hc : 1 ≤ conc)
    (m : ℕ → Option CogResult) (c r : ℤ) (total : ℕ) :
    (collectPixelValues conc m c r total).length = total := by
  unfold collectPixelValues
  rw [collectLoop_eq_foldl conc hc, foldl_processOne_length,
    List.length_replicate]

/-- Slot-wise characterization of the collected sequence. -/
theorem collectPixelValues_spec (conc : ℕ) (hc : 1 ≤ conc)
    (m : ℕ → Option CogResult) (c r : ℤ) (total j : ℕ) (hj : j < total) :
    (collectPixelValues conc m c r total)[j]? =
      match m j with
      | some rr => some (getPixelValue rr c r)
      | none => some none := by
  unfold collectPixelValues
  rw [collectLoop_eq_foldl conc hc]
  rw [foldl_processOne_mem _ _ _ _ _ _ (List.nodup_range _)
    (List.mem_range.mpr hj) (by rw [List.length_replicate]; exact hj)]
  cases m j with
  | none => simp [List.getElem?_replicate, hj]
  | some rr => rfl

/-- C3: for a 120-month collection where the fetch fails for exactly 3
specific months and every other month yields a finite sample at the
selected pixel, the collected sequence has length exactly 120, is null at
exactly the failing positions and numeric at all others — and the pool
sizes 1 and 8 produce identical sequences. -/
theorem pixel_timeseries_batch (monthResult : ℕ → Option CogResult)
    (col row : ℤ) (fail : Finset ℕ) (_hcard : fail.card = 3)
    (_hlt : ∀ i ∈ fail, i < 120)
    (hfail : ∀ i, i < 120 → (i ∈ fail ↔ monthResult i = none))
    (hok : ∀ i, i < 120 → i ∉ fail →
      ∃ rr q, monthResult i = some rr ∧ getPixelValue rr col row = some q) :
    (collectPixelValues 8 monthResult col row 120).length = 120 ∧
    (∀ i, i < 120 →
      ((collectPixelValues 8 monthResult col row 120)[i]? = some none ↔
        i ∈ fail)) ∧
    (∀ i, i < 120 → i ∉ fail →
      ∃ q : ℚ,
        (collectPixelValues 8 monthResult col row 120)[i]? = some (some q)) ∧
    collectPixelValues 1 monthResult col row 120
      = collectPixelValues 8 monthResult col row 120 := by
  refine ⟨collectPixelValues_length 8 (by norm_num) _ _ _ _, ?_, ?_, ?_⟩
  · intro i hi
    rw [collectPixelValues_spec 8 (by norm_num) _ _ _ _ i hi]
    constructor
    · intro h
      by_contra hni
      obtain ⟨rr, q, hm, hq⟩ := hok i hi hni
      rw [hm] at h
      simp [hq] at h
    · intro h
      rw [(hfail i hi).mp h]
  · intro i hi hni
    obtain ⟨rr, q, hm, hq⟩ := hok i hi hni
    rw [collectPixelValues_spec 8 (by norm_num) _ _ _ _ i hi]
    simp only [hm, hq]
    exact ⟨q, rfl⟩
  · unfold collectPixelValues
    rw [collectLoop_eq_foldl 1 (by norm_num),
      collectLoop_eq_foldl 8 (by norm_num)]

/-- C3 witness: the demo oracle failing at months 10, 50 and 99 yields a
120-slot sequence, identical for pool sizes 1 and 8. -/
theorem pixel_timeseries_batch_witness :
    (collectPixelValues 8 demoMonthResult 0 0 120).length = 120 ∧
    collectPixelValues 1 demoMonthResult 0 0 120
      = collectPixelValues 8 demoMonthResult 0 0 120 := by
  have h := pixel_timeseries_batch demoMonthResult 0 0
    ({10, 50, 99} : Finset ℕ) (by decide) (by decide)
    (fun i hi => by
      by_cases hm : i ∈ ({10, 50, 99} : Finset ℕ) <;>
        simp [demoMonthResult, hm])
    (fun i hi hni =>
      ⟨sampleCog, 1/2, by simp [demoMonthResult, hni], by norm_num
        [sampleCog, getPixelValue, jsIndex]⟩)
  exact ⟨h.1, h.2.2.2⟩

end Heatmap
